import Mathlib

/-!
Shallow embedding of `openvpn/common/redir.hpp`: the `RedirectStdFD` stream
set with its `redirect()`/`close()` operations, the `RedirectPipe`
constructor (pipe allocation, FD_CLOEXEC marking, /dev/null fallback for
stdin) and the `transact` event loop with its `SD_OUT`/`SD_IN` chunked I/O
drivers.  Descriptors are modelled as natural numbers handed out by a fresh
allocator; OS-call failures are driven by explicit oracles.
-/

namespace openvpn

/-- Error kinds raised during `RedirectPipe` construction
(`OPENVPN_THROW(redirect_std_err, ...)`), classified by failure site:
`::pipe`, `::open("/dev/null")`, `::fcntl(F_SETFD, FD_CLOEXEC)`. -/
inductive RedirErr
  | pipeCreationError
  | openError
  | cloexecError
deriving Repr, DecidableEq

/-- Kernel descriptor-table model: the next fresh descriptor number, the list
of currently open descriptors, the descriptors that were opened read-only on
the null device, and call counters for `::pipe` and `::fcntl(FD_CLOEXEC)`
used to index the failure oracle. -/
structure Sys where
  nextFd : Nat
  openFds : List Nat
  nullRd : List Nat
  pipeCalls : Nat
  cloexecCalls : Nat
deriving Repr, DecidableEq

/-- `RedirectStdFD`'s data members: three `ScopedFD` handles (modelled as
`Option` of a descriptor, `none` = undefined) plus the `combine_out_err`
flag. -/
structure StreamSet where
  hin : Option Nat := none
  hout : Option Nat := none
  herr : Option Nat := none
  combine_out_err : Bool := false
deriving Repr, DecidableEq

/-- `ScopedFD::close` on a handle value: removes the descriptor from the
open-descriptor table when the handle is defined. -/
def fdClose (s : Sys) : Option Nat → Sys
  | none => s
  | some f => { s with openFds := s.openFds.erase f }

/-- Failure oracle for the OS calls made by the `RedirectPipe`
constructor. -/
structure Oracle where
  pipeFails : Nat → Bool
  cloexecFails : Nat → Bool
  openNullFails : Bool

/-- `::pipe(fd)` wrapped by `RedirectPipe::make_pipe`: allocates two fresh
descriptors on success; on failure raises `pipeCreationError`, leaving no
descriptor allocated. -/
def make_pipe (o : Oracle) (s : Sys) : Except (RedirErr × Sys) (Nat × Nat × Sys) :=
  if o.pipeFails s.pipeCalls then
    Except.error (RedirErr.pipeCreationError, { s with pipeCalls := s.pipeCalls + 1 })
  else
    Except.ok (s.nextFd, s.nextFd + 1,
      { s with nextFd := s.nextFd + 2,
               openFds := s.nextFd :: ((s.nextFd + 1) :: s.openFds),
               pipeCalls := s.pipeCalls + 1 })

/-- `RedirectPipe::cloexec`: `::fcntl(fd, F_SETFD, FD_CLOEXEC)`; returns `fd`
on success, raises `cloexecError` on failure (the descriptor itself remains
open in either case). -/
def cloexec (o : Oracle) (fd : Nat) (s : Sys) : Except (RedirErr × Sys) (Nat × Sys) :=
  if o.cloexecFails s.cloexecCalls then
    Except.error (RedirErr.cloexecError, { s with cloexecCalls := s.cloexecCalls + 1 })
  else
    Except.ok (fd, { s with cloexecCalls := s.cloexecCalls + 1 })

/-- `::open("/dev/null", O_RDONLY, 0)`: yields a fresh descriptor recorded in
`nullRd`, or `none` on failure (`open` itself raises nothing; the constructor
checks the result). -/
def openNull (s : Sys) (fail : Bool) : Option Nat × Sys :=
  if fail then (none, s)
  else
    (some s.nextFd,
      { s with nextFd := s.nextFd + 1,
               openFds := s.nextFd :: s.openFds,
               nullRd := s.nextFd :: s.nullRd })

/-- Stack unwinding of the partially constructed `RedirectPipe` object: when
the constructor body throws, the destructors of the base `RedirectStdFD`
subobject's `ScopedFD` members close exactly the parent-held handles. -/
def unwindParent (p : StreamSet) (s : Sys) : Sys :=
  fdClose (fdClose (fdClose s p.hin) p.hout) p.herr

/-- Outcome of a failed `RedirectPipe` construction: the error kind, the
remote stream set as the caller observes it afterwards, and the descriptor
table after unwinding. -/
structure CtorFail where
  err : RedirErr
  remote : StreamSet
  sys : Sys
deriving Repr, DecidableEq

/-- Outcome of a successful `RedirectPipe` construction: the parent-side
stream set (`this`), the remote stream set, and the descriptor table. -/
structure CtorOk where
  parent : StreamSet
  remote : StreamSet
  sys : Sys
deriving Repr, DecidableEq

/-- The stdin step of the `RedirectPipe` constructor (lines 210-225): with
input enabled, make a pipe, mark the parent-kept write end close-on-exec and
give the read end to the remote set; otherwise open the null device read-only
into the remote's input handle, raising `openError` when that open fails. -/
def constructStdin (o : Oracle) (enable_in : Bool) (p remote : StreamSet) (s : Sys) :
    Except CtorFail CtorOk :=
  if enable_in then
    match make_pipe o s with
    | Except.error (e, s1) => Except.error ⟨e, remote, unwindParent p s1⟩
    | Except.ok (fd0, fd1, s1) =>
      match cloexec o fd1 s1 with
      | Except.error (e, s2) => Except.error ⟨e, remote, unwindParent p s2⟩
      | Except.ok (f, s2) =>
        Except.ok ⟨{ p with hin := some f },
                   { remote with hin := some fd0 },
                   fdClose s2 remote.hin⟩
  else
    match openNull s o.openNullFails with
    | (fopt, s1) =>
      match fopt with
      | none => Except.error ⟨RedirErr.openError,
                              { remote with hin := none },
                              unwindParent p (fdClose s1 remote.hin)⟩
      | some f => Except.ok ⟨p, { remote with hin := some f }, fdClose s1 remote.hin⟩

/-- The stderr step of the `RedirectPipe` constructor (lines 200-207)
followed by the stdin step: when output and error are not combined, make a
second pipe, parent keeping the close-on-exec read end and the remote the
write end. -/
def constructStderr (o : Oracle) (combine enable_in : Bool) (p remote : StreamSet) (s : Sys) :
    Except CtorFail CtorOk :=
  if combine then
    constructStdin o enable_in p remote s
  else
    match make_pipe o s with
    | Except.error (e, s1) => Except.error ⟨e, remote, unwindParent p s1⟩
    | Except.ok (fd0, fd1, s1) =>
      match cloexec o fd0 s1 with
      | Except.error (e, s2) => Except.error ⟨e, remote, unwindParent p s2⟩
      | Except.ok (f, s2) =>
        constructStdin o enable_in
          { p with herr := some f }
          { remote with herr := some fd1 }
          (fdClose s2 remote.herr)

/-- The `RedirectPipe(remote, combine_out_err_arg, enable_in)` constructor
(lines 189-226): stdout pipe first, then the stderr step, then the stdin
step.  On a throw the error is propagated together with the remote set as
already mutated and the descriptor table after the parent subobject's
unwinding. -/
def RedirectPipe.construct (o : Oracle) (remote : StreamSet)
    (combine_out_err_arg enable_in : Bool) (s : Sys) : Except CtorFail CtorOk :=
  match make_pipe o s with
  | Except.error (e, s1) => Except.error ⟨e, remote, s1⟩
  | Except.ok (fd0, fd1, s1) =>
    match cloexec o fd0 s1 with
    | Except.error (e, s2) => Except.error ⟨e, remote, s2⟩
    | Except.ok (f, s2) =>
      constructStderr o combine_out_err_arg enable_in
        { hout := some f, combine_out_err := combine_out_err_arg }
        { remote with hout := some fd1, combine_out_err := combine_out_err_arg }
        (fdClose s2 remote.hout)

/-- A default-constructed `RedirectStdFD` (all handles undefined). -/
def remote0 : StreamSet := {}

/-- A fresh descriptor table: 0/1/2 are the process's own std streams and are
not tracked; allocation starts at 3. -/
def sys0 : Sys := ⟨3, [], [], 0, 0⟩

/-- An oracle on which every OS call succeeds. -/
def oracleOk : Oracle := ⟨fun _ => false, fun _ => false, false⟩

/-- An oracle on which the second `::pipe` call fails. -/
def oraclePipe1 : Oracle := ⟨fun k => k == 1, fun _ => false, false⟩

/-- `true` iff the given descriptor is held by one of the stream set's three
handles. -/
def remoteOwns (ss : StreamSet) (fd : Nat) : Bool :=
  (ss.hin == some fd) || (ss.hout == some fd) || (ss.herr == some fd)

/-- Completion event delivered to the writer driver `SD_OUT`: either a
successful `async_write_some` completion reporting the number of bytes
written, or an I/O error. -/
inductive WEvent
  | ok (n : Nat)
  | err
deriving Repr, DecidableEq

/-- Completion event delivered to a reader driver `SD_IN`: either a
successful `async_read_some` completion carrying the received bytes, or an
I/O error (asio reports EOF of a posix stream descriptor as an error code). -/
inductive REvent
  | ok (bs : List Nat)
  | err
deriving Repr, DecidableEq

/-- Observable action of the writer driver: issuing `async_write_some` of the
chunk starting at cursor `pos` with length `len`, or `sd->close()`. -/
inductive WAct
  | write (pos len : Nat)
  | close
deriving Repr, DecidableEq

/-- Result of running the writer driver: the actions it performed, the final
cursor (bytes reported written), and whether it closed its descriptor. -/
structure WRun where
  acts : List WAct
  sent : Nat
  closed : Bool
deriving Repr, DecidableEq

/-- `SD_OUT::queue_write` (lines 272-284) run against a list of completion
events: each step issues a write of `min 2048 remaining` (the
`const_buffers_1_limit(2048)` chunk); on `!ec && bytes_sent < buf.size()` it
advances the cursor and reissues, otherwise it closes the descriptor. -/
def sdOutRun (len : Nat) : Nat → List WEvent → WRun
  | pos, [] => ⟨[WAct.write pos (min 2048 (len - pos))], pos, false⟩
  | pos, WEvent.err :: _ => ⟨[WAct.write pos (min 2048 (len - pos)), WAct.close], pos, true⟩
  | pos, WEvent.ok n :: es =>
    if n < len - pos then
      let r := sdOutRun len (pos + n) es
      ⟨WAct.write pos (min 2048 (len - pos)) :: r.acts, r.sent, r.closed⟩
    else
      ⟨[WAct.write pos (min 2048 (len - pos)), WAct.close], pos + n, true⟩

/-- `SD_IN::queue_read` (lines 305-319) run against a list of completion
events: on `!ec` the received bytes are appended to the accumulator
(`data.put_consume`) and the read is reissued; on an error the descriptor is
closed.  Returns the accumulated bytes and whether the driver closed. -/
def sdInRun : List REvent → List Nat × Bool
  | [] => ([], false)
  | REvent.err :: _ => ([], true)
  | REvent.ok bs :: es => ((bs ++ (sdInRun es).1, (sdInRun es).2) : List Nat × Bool)

/-- The completion events the environment (child process and OS) delivers to
the three drivers of one `transact` call. -/
structure TransactEnv where
  wev : List WEvent
  oev : List REvent
  eev : List REvent
deriving Repr, DecidableEq

/-- Observable outcome of `RedirectPipe::transact`: the parent stream set
after the `SD` constructors released its handles, whether `io_context.run()`
ran every registered driver to its terminal state, and the assembled
`inout.out` / `inout.err` byte sequences. -/
structure TransactRes where
  parent : StreamSet
  completed : Bool
  outBytes : List Nat
  errBytes : List Nat
deriving Repr, DecidableEq

/-- `RedirectPipe::transact` (lines 228-237): construct `SD_OUT send_in` on
the parent's `in` handle and `SD_IN recv_out` / `recv_err` on `out` / `err`
(each `SD` constructor releases a defined handle into the stream descriptor),
run the event loop, and read back the two accumulated contents. -/
def RedirectPipe.transact (env : TransactEnv) (p : StreamSet) (input : List Nat) :
    TransactRes :=
  { parent := { p with hin := none, hout := none, herr := none },
    completed := (!p.hin.isSome || (sdOutRun input.length 0 env.wev).closed)
      && (!p.hout.isSome || (sdInRun env.oev).2)
      && (!p.herr.isSome || (sdInRun env.eev).2),
    outBytes := if p.hout.isSome then (sdInRun env.oev).1 else [],
    errBytes := if p.herr.isSome then (sdInRun env.eev).1 else [] }

/-- An event of the single-threaded `io_context` loop, tagged with the driver
whose pending operation it completes. -/
inductive Ev
  | ew (e : WEvent)
  | eo (e : REvent)
  | ee (e : REvent)
deriving Repr, DecidableEq

/-- State of one stream driver inside the loop: `inert` (handle undefined at
registration, no operation ever issued), `active` (operation in flight) or
`done` (descriptor closed, terminal). -/
inductive DState (α : Type)
  | inert
  | active (a : α)
  | done (a : α)
deriving Repr, DecidableEq

/-- Writer driver transition on one completion event (payload: cursor). -/
def wStepD (len : Nat) : DState Nat → WEvent → DState Nat
  | DState.active pos, WEvent.err => DState.done pos
  | DState.active pos, WEvent.ok n =>
    if n < len - pos then DState.active (pos + n) else DState.done (pos + n)
  | s, _ => s

/-- Reader driver transition on one completion event (payload: accumulated
bytes). -/
def rStepD : DState (List Nat) → REvent → DState (List Nat)
  | DState.active acc, REvent.err => DState.done acc
  | DState.active acc, REvent.ok bs => DState.active (acc ++ bs)
  | s, _ => s

/-- Joint state of the three drivers multiplexed on the loop. -/
structure Loop where
  wst : DState Nat
  ost : DState (List Nat)
  est : DState (List Nat)
deriving Repr, DecidableEq

/-- One handler execution of the single-threaded loop: exactly one driver's
state advances, the others are untouched. -/
def lstep (len : Nat) (st : Loop) : Ev → Loop
  | Ev.ew e => { st with wst := wStepD len st.wst e }
  | Ev.eo e => { st with ost := rStepD st.ost e }
  | Ev.ee e => { st with est := rStepD st.est e }

/-- Running the loop over a whole schedule of completion events. -/
def lrun (len : Nat) (st : Loop) (evs : List Ev) : Loop :=
  evs.foldl (lstep len) st

/-- Driver registration in `transact`: a driver is started (with empty
payload) iff its handle is defined. -/
def initLoop (p : StreamSet) : Loop :=
  ⟨if p.hin.isSome then DState.active 0 else DState.inert,
   if p.hout.isSome then DState.active [] else DState.inert,
   if p.herr.isSome then DState.active [] else DState.inert⟩

/-- A driver no longer has an operation in flight. -/
def terminalD {α : Type} : DState α → Bool
  | DState.active _ => false
  | _ => true

/-- `io_context::run()` returns exactly when no driver has a pending
operation. -/
def allTerminal (st : Loop) : Bool :=
  terminalD st.wst && terminalD st.ost && terminalD st.est

/-- `SD_IN::content()` as read after the loop: the accumulated bytes, empty
for a driver that was never started. -/
def contentOf : DState (List Nat) → List Nat
  | DState.inert => []
  | DState.active a => a
  | DState.done a => a

/-- Events of a schedule addressed to the writer driver. -/
def projW : List Ev → List WEvent
  | [] => []
  | Ev.ew e :: r => e :: projW r
  | _ :: r => projW r

/-- Events of a schedule addressed to the stdout reader driver. -/
def projO : List Ev → List REvent
  | [] => []
  | Ev.eo e :: r => e :: projO r
  | _ :: r => projO r

/-- Events of a schedule addressed to the stderr reader driver. -/
def projE : List Ev → List REvent
  | [] => []
  | Ev.ee e :: r => e :: projE r
  | _ :: r => projE r

/-- Number of `close` actions in a writer action trace. -/
def closeCount : List WAct → Nat
  | [] => 0
  | WAct.close :: r => closeCount r + 1
  | WAct.write _ _ :: r => closeCount r

/-- `true` iff the trace contains no `write` action at all. -/
def noWrite : List WAct → Bool
  | [] => true
  | WAct.write _ _ :: _ => false
  | WAct.close :: r => noWrite r

/-- `true` iff no `write` action occurs after a `close` action. -/
def noWriteAfterClose : List WAct → Bool
  | [] => true
  | WAct.close :: r => noWrite r
  | WAct.write _ _ :: r => noWriteAfterClose r

/-- `true` iff every issued write covers exactly `min 2048 (len - pos)`
bytes, the bounded chunk of the remaining unsent suffix. -/
def chunksOk (len : Nat) : List WAct → Bool
  | [] => true
  | WAct.write p l :: r => (l == min 2048 (len - p)) && chunksOk len r
  | WAct.close :: r => chunksOk len r

/-- OS faithfulness of a writer event list: a successful completion never
reports more bytes written than the chunk that was requested. -/
def wValid (len : Nat) : Nat → List WEvent → Bool
  | _, [] => true
  | _, WEvent.err :: _ => true
  | pos, WEvent.ok n :: es =>
    (n ≤ min 2048 (len - pos) : Bool)
      && (if n < len - pos then wValid len (pos + n) es else true)

/-- `true` iff the writer event list contains no I/O error. -/
def wNoErr (evs : List WEvent) : Bool :=
  evs.all fun e => e != WEvent.err

/-- `true` iff the writer event list contains an I/O error. -/
def wHasErr (evs : List WEvent) : Bool :=
  evs.any fun e => e == WEvent.err

/-- `true` for a successful reader completion. -/
def rIsOk : REvent → Bool
  | REvent.ok _ => true
  | REvent.err => false

/-- Bytes carried by a reader completion. -/
def rPayload : REvent → List Nat
  | REvent.ok bs => bs
  | REvent.err => []

/-- The bytes a reader receives before its first I/O error. -/
def rPrefixBytes (evs : List REvent) : List Nat :=
  ((evs.takeWhile rIsOk).map rPayload).flatten

/-- `true` iff the reader event list contains an I/O error. -/
def rHasErr (evs : List REvent) : Bool :=
  evs.any fun e => e == REvent.err

/-- Observable action of `RedirectStdFD::redirect`: a `::dup2(src, dst)`
call, a `ScopedFD::release`, or a `ScopedFD::close` of the given
descriptor. -/
inductive RAct
  | dup (src dst : Nat)
  | release (fd : Nat)
  | closeH (fd : Nat)
deriving Repr, DecidableEq

/-- Failure oracle for the `::dup2` calls of `redirect()`, indexed by call
count; the code ignores the return value, so failures are swallowed. -/
structure DupOracle where
  dupFails : Nat → Bool

/-- The dup oracle on which every `::dup2` call succeeds. -/
def dupOk : DupOracle := ⟨fun _ => false⟩

/-- Descriptor table of the child-side process image: each open descriptor
refers to an underlying open file description (identified by a number). -/
def FileMap : Type := Nat → Option Nat

/-- Effect of a successful `::dup2(src, dst)`: when `src` is open, `dst`
becomes another descriptor of `src`'s file description (implicitly closing
whatever `dst` was); when `src` is closed, `dup2` fails with `EBADF` and
changes nothing. -/
def mapDup (m : FileMap) (src dst : Nat) : FileMap :=
  match m src with
  | none => m
  | some f => fun x => if x = dst then some f else m x

/-- `::dup2` under the failure oracle (`redirect()` never checks the
result). -/
def dup2 (o : DupOracle) (k : Nat) (m : FileMap) (src dst : Nat) : FileMap :=
  if o.dupFails k then m else mapDup m src dst

/-- Closing an open descriptor in the child-side table. -/
def mapClose (m : FileMap) (fd : Nat) : FileMap :=
  fun x => if x = fd then none else m x

/-- Intermediate state while `redirect()` runs: the stream set, the
descriptor table, the emitted actions (in order) and the `::dup2` call
count. -/
structure RSt where
  ss : StreamSet
  fmap : FileMap
  acts : List RAct
  k : Nat

/-- The stdin block of `RedirectStdFD::redirect` (lines 58-64):
`dup2(in(), 0)`, then release `in` when its value collides with a
conventional slot (`in() <= 2`). -/
def redirectStdin (o : DupOracle) (st : RSt) : RSt :=
  match st.ss.hin with
  | none => st
  | some a =>
    let m1 := dup2 o st.k st.fmap a 0
    if a ≤ 2 then
      ⟨{ st.ss with hin := none }, m1, st.acts ++ [RAct.dup a 0, RAct.release a], st.k + 1⟩
    else
      ⟨st.ss, m1, st.acts ++ [RAct.dup a 0], st.k + 1⟩

/-- The stdout block of `RedirectStdFD::redirect` (lines 66-74):
`dup2(out(), 1)`, plus `dup2(out(), 2)` when `err` is undefined and
`combine_out_err` is set, then release `out` when `out() <= 2`. -/
def redirectStdout (o : DupOracle) (st : RSt) : RSt :=
  match st.ss.hout with
  | none => st
  | some b =>
    let m1 := dup2 o st.k st.fmap b 1
    if !st.ss.herr.isSome && st.ss.combine_out_err then
      let m2 := dup2 o (st.k + 1) m1 b 2
      if b ≤ 2 then
        ⟨{ st.ss with hout := none }, m2,
         st.acts ++ [RAct.dup b 1, RAct.dup b 2, RAct.release b], st.k + 2⟩
      else
        ⟨st.ss, m2, st.acts ++ [RAct.dup b 1, RAct.dup b 2], st.k + 2⟩
    else
      if b ≤ 2 then
        ⟨{ st.ss with hout := none }, m1,
         st.acts ++ [RAct.dup b 1, RAct.release b], st.k + 1⟩
      else
        ⟨st.ss, m1, st.acts ++ [RAct.dup b 1], st.k + 1⟩

/-- The stderr block of `RedirectStdFD::redirect` (lines 76-82):
`dup2(err(), 2)`, then release `err` when `err() <= 2`. -/
def redirectStderr (o : DupOracle) (st : RSt) : RSt :=
  match st.ss.herr with
  | none => st
  | some c =>
    let m1 := dup2 o st.k st.fmap c 2
    if c ≤ 2 then
      ⟨{ st.ss with herr := none }, m1, st.acts ++ [RAct.dup c 2, RAct.release c], st.k + 1⟩
    else
      ⟨st.ss, m1, st.acts ++ [RAct.dup c 2], st.k + 1⟩

/-- Closing one handle during `RedirectStdFD::close`. -/
def closeHandle (st : RSt) (h : Option Nat) : RSt :=
  match h with
  | none => st
  | some f => ⟨st.ss, mapClose st.fmap f, st.acts ++ [RAct.closeH f], st.k⟩

/-- `RedirectStdFD::close` (lines 87-92): close `in`, `out`, `err` in turn
(released handles are already undefined and are skipped by
`ScopedFD::close`). -/
def RedirectStdFD.closeAll (st : RSt) : RSt :=
  let st1 := closeHandle st st.ss.hin
  let st2 := closeHandle st1 st.ss.hout
  let st3 := closeHandle st2 st.ss.herr
  ⟨{ st3.ss with hin := none, hout := none, herr := none }, st3.fmap, st3.acts, st3.k⟩

/-- `RedirectStdFD::redirect` (lines 56-85): the three dup2 blocks followed
by `close()`. -/
def RedirectStdFD.redirect (o : DupOracle) (ss : StreamSet) (m : FileMap) : RSt :=
  RedirectStdFD.closeAll (redirectStderr o (redirectStdout o (redirectStdin o ⟨ss, m, [], 0⟩)))

/-- `true` iff the trace contains no `closeH` action. -/
def noCloseActs : List RAct → Bool
  | [] => true
  | RAct.closeH _ :: _ => false
  | _ :: r => noCloseActs r

/-- `true` iff the trace consists only of `closeH` actions. -/
def onlyCloseActs : List RAct → Bool
  | [] => true
  | RAct.closeH _ :: r => onlyCloseActs r
  | _ :: _ => false

/-- `true` iff every `closeH` action of the trace comes after every other
action: all handle closes happen in the final `close()` phase. -/
def closesAtEnd : List RAct → Bool
  | [] => true
  | RAct.closeH _ :: r => onlyCloseActs r
  | _ :: r => closesAtEnd r

/-- The unique result of a successful `RedirectPipe` construction from a
fresh descriptor table and a default-constructed remote set, as a function of
the two flags. -/
def ctorOkExpected (c e : Bool) : CtorOk :=
  if c then
    if e then
      ⟨⟨some 6, some 3, none, true⟩, ⟨some 5, some 4, none, true⟩,
       ⟨7, [5, 6, 3, 4], [], 2, 2⟩⟩
    else
      ⟨⟨none, some 3, none, true⟩, ⟨some 5, some 4, none, true⟩,
       ⟨6, [5, 3, 4], [5], 1, 1⟩⟩
  else
    if e then
      ⟨⟨some 8, some 3, some 5, false⟩, ⟨some 7, some 4, some 6, false⟩,
       ⟨9, [7, 8, 5, 6, 3, 4], [], 3, 3⟩⟩
    else
      ⟨⟨none, some 3, some 5, false⟩, ⟨some 7, some 4, some 6, false⟩,
       ⟨8, [7, 5, 6, 3, 4], [7], 2, 2⟩⟩

/-- What actually holds about descriptors left open by a failed
construction: each is either held by a handle of the remote stream set (whose
cleanup belongs to the remote's owner), or was left dangling because an
`fcntl(FD_CLOEXEC)` call failed between `::pipe` and the `reset` into a
handle. -/
def leakSpec (o : Oracle) : Except CtorFail CtorOk → Prop
  | Except.error fl =>
    ∀ fd, fd ∈ fl.sys.openFds →
      remoteOwns fl.remote fd = true ∨
        (o.cloexecFails 0 = true ∨ o.cloexecFails 1 = true ∨ o.cloexecFails 2 = true)
  | Except.ok _ => True

/-- The claimed operational behaviour of `RedirectStdFD::redirect` as a
predicate on the stream set it starts from and the action trace it emits:
slot duplications exactly for the defined handles (plus the
combine-out-err duplication of `out` onto slot 2), release instead of close
for source descriptors colliding with a conventional slot number, and all
closes at the end. -/
def installSpec (ss : StreamSet) (t : List RAct) : Prop :=
  (∀ a, ss.hin = some a → RAct.dup a 0 ∈ t) ∧
  (ss.hin = none → ∀ s, RAct.dup s 0 ∉ t) ∧
  (∀ b, ss.hout = some b → RAct.dup b 1 ∈ t) ∧
  (ss.hout = none → ∀ s, RAct.dup s 1 ∉ t) ∧
  (∀ c, ss.herr = some c → RAct.dup c 2 ∈ t) ∧
  (∀ b, ss.herr = none → ss.combine_out_err = true → ss.hout = some b →
    RAct.dup b 2 ∈ t) ∧
  (ss.herr = none → ss.combine_out_err = false → ∀ s, RAct.dup s 2 ∉ t) ∧
  (∀ f, (ss.hin = some f ∨ ss.hout = some f ∨ ss.herr = some f) → f ≤ 2 →
    RAct.release f ∈ t ∧ RAct.closeH f ∉ t) ∧
  (∀ f, (ss.hin = some f ∨ ss.hout = some f ∨ ss.herr = some f) → 2 < f →
    RAct.closeH f ∈ t ∧ RAct.release f ∉ t) ∧
  closesAtEnd t = true

/-- A handle after the conditional release of `redirect()`: released (and so
undefined) exactly when its descriptor value collides with a conventional
slot number. -/
def postRel : Option Nat → Option Nat
  | none => none
  | some a => if a ≤ 2 then none else some a

/-- Actions emitted by the stdin block of `redirect()`. -/
def inActs (ss : StreamSet) : List RAct :=
  match ss.hin with
  | none => []
  | some a => if a ≤ 2 then [RAct.dup a 0, RAct.release a] else [RAct.dup a 0]

/-- Actions emitted by the stdout block of `redirect()`. -/
def outActs (ss : StreamSet) : List RAct :=
  match ss.hout with
  | none => []
  | some b =>
    if !ss.herr.isSome && ss.combine_out_err then
      if b ≤ 2 then [RAct.dup b 1, RAct.dup b 2, RAct.release b]
      else [RAct.dup b 1, RAct.dup b 2]
    else
      if b ≤ 2 then [RAct.dup b 1, RAct.release b]
      else [RAct.dup b 1]

/-- Actions emitted by the stderr block of `redirect()`. -/
def errActs (ss : StreamSet) : List RAct :=
  match ss.herr with
  | none => []
  | some c => if c ≤ 2 then [RAct.dup c 2, RAct.release c] else [RAct.dup c 2]

/-- One `close` action for a still-defined handle. -/
def closeActsOf : Option Nat → List RAct
  | none => []
  | some a => [RAct.closeH a]

/-- Actions emitted by the final `close()` of `redirect()`: each handle that
was not released earlier is closed. -/
def closeActs (ss : StreamSet) : List RAct :=
  closeActsOf (postRel ss.hin) ++ closeActsOf (postRel ss.hout) ++
    closeActsOf (postRel ss.herr)

theorem sdInRun_eq (evs : List REvent) : sdInRun evs = (rPrefixBytes evs, rHasErr evs) := by
  induction evs with
  | nil => rfl
  | cons e es ih =>
    cases e with
    | err => rfl
    | ok bs =>
      simp [sdInRun, rPrefixBytes, rHasErr, rIsOk, rPayload, List.takeWhile_cons, ih]

theorem sdOutRun_closeCount (len : Nat) (evs : List WEvent) : ∀ pos,
    closeCount (sdOutRun len pos evs).acts =
      (if (sdOutRun len pos evs).closed then 1 else 0) := by
  induction evs with
  | nil => intro pos; simp [sdOutRun, closeCount]
  | cons e es ih =>
    intro pos
    cases e with
    | err => simp [sdOutRun, closeCount]
    | ok n =>
      by_cases h : n < len - pos
      · simpa [sdOutRun, h, closeCount] using ih (pos + n)
      · simp [sdOutRun, h, closeCount]

theorem sdOutRun_noWriteAfterClose (len : Nat) (evs : List WEvent) : ∀ pos,
    noWriteAfterClose (sdOutRun len pos evs).acts = true := by
  induction evs with
  | nil => intro pos; simp [sdOutRun, noWriteAfterClose]
  | cons e es ih =>
    intro pos
    cases e with
    | err => simp [sdOutRun, noWriteAfterClose, noWrite]
    | ok n =>
      by_cases h : n < len - pos
      · simpa [sdOutRun, h, noWriteAfterClose] using ih (pos + n)
      · simp [sdOutRun, h, noWriteAfterClose, noWrite]

theorem sdOutRun_chunksOk (len : Nat) (evs : List WEvent) : ∀ pos,
    chunksOk len (sdOutRun len pos evs).acts = true := by
  induction evs with
  | nil => intro pos; simp [sdOutRun, chunksOk]
  | cons e es ih =>
    intro pos
    cases e with
    | err => simp [sdOutRun, chunksOk]
    | ok n =>
      by_cases h : n < len - pos
      · simpa [sdOutRun, h, chunksOk] using ih (pos + n)
      · simp [sdOutRun, h, chunksOk]

theorem sdOutRun_sent_complete (len : Nat) (evs : List WEvent) : ∀ pos, pos ≤ len →
    wNoErr evs = true → wValid len pos evs = true →
    (sdOutRun len pos evs).closed = true → (sdOutRun len pos evs).sent = len := by
  induction evs with
  | nil => intro pos _ _ _ hcl; simp [sdOutRun] at hcl
  | cons e es ih =>
    intro pos hpos hne hv hcl
    cases e with
    | err => simp [wNoErr] at hne
    | ok n =>
      simp [wValid] at hv
      by_cases h : n < len - pos
      · simp [sdOutRun, h] at hcl ⊢
        have hne' : wNoErr es = true := by
          simp [wNoErr] at hne ⊢
          exact hne
        have hv' : wValid len (pos + n) es = true := by
          rcases hv.2 with h2 | h2
          · omega
          · exact h2
        exact ih (pos + n) (by omega) hne' hv' hcl
      · simp [sdOutRun, h]
        omega

theorem sdOutRun_closed_of_err (len : Nat) (evs : List WEvent) : ∀ pos,
    wHasErr evs = true → (sdOutRun len pos evs).closed = true := by
  induction evs with
  | nil => intro pos h; simp [wHasErr] at h
  | cons e es ih =>
    intro pos h
    cases e with
    | err => simp [sdOutRun]
    | ok n =>
      have h' : wHasErr es = true := by
        simp [wHasErr] at h ⊢
        exact h
      by_cases hn : n < len - pos
      · simpa [sdOutRun, hn] using ih (pos + n) h'
      · simp [sdOutRun, hn]

/-- Claim C2 (amended): during `transact` the writer driver closes its
descriptor exactly once (`closeCount` is 1 when it reached its terminal
state, 0 while an operation is still pending), never attempts a write after
the close, and every issued write is the bounded chunk
`min 2048 (remaining suffix)`; moreover, in the absence of I/O errors on the
input stream, the close happens only after every byte of the request's input
has been written. -/
theorem claim_C2_amended :
    (∀ (len : Nat) (evs : List WEvent),
      closeCount (sdOutRun len 0 evs).acts =
        (if (sdOutRun len 0 evs).closed then 1 else 0) ∧
      noWriteAfterClose (sdOutRun len 0 evs).acts = true ∧
      chunksOk len (sdOutRun len 0 evs).acts = true) ∧
    (∀ (len : Nat) (evs : List WEvent),
      wNoErr evs = true → wValid len 0 evs = true →
      (sdOutRun len 0 evs).closed = true → (sdOutRun len 0 evs).sent = len) :=
  ⟨fun len evs =>
    ⟨sdOutRun_closeCount len evs 0, sdOutRun_noWriteAfterClose len evs 0,
     sdOutRun_chunksOk len evs 0⟩,
   fun len evs hne hv hcl =>
    sdOutRun_sent_complete len evs 0 (Nat.zero_le len) hne hv hcl⟩

/-- Claim C2, counterexample to the claim as stated: on an input of five
bytes, after a partial write of two bytes the child closes its end and the
next write completes with an I/O error; the writer closes its descriptor
(exactly once) having sent only two of the five bytes — so the descriptor is
not closed "only after every byte of the request's input has been sent". -/
theorem claim_C2_cex :
    (sdOutRun 5 0 [WEvent.ok 2, WEvent.err]).closed = true ∧
    closeCount (sdOutRun 5 0 [WEvent.ok 2, WEvent.err]).acts = 1 ∧
    (sdOutRun 5 0 [WEvent.ok 2, WEvent.err]).sent = 2 ∧
    ¬(sdOutRun 5 0 [WEvent.ok 2, WEvent.err]).sent = 5 := by
  decide

theorem claim_C2_witness :
    (sdOutRun 3 0 [WEvent.ok 3]).sent = 3 :=
  claim_C2_amended.2 3 [WEvent.ok 3] (by decide) (by decide) (by decide)

/-- Claim C3: for a child that copies its input verbatim to its output
stream — modelled, as the claim states, by the parent's output read end
delivering exactly the bytes that the writer driver sent down the input
write end (all of `input`, since the writer runs to completion without
error) and the error read end delivering nothing — `transact` returns
`output = input` and an empty error byte sequence. -/
theorem claim_C3 (p : StreamSet) (input : List Nat) (env : TransactEnv)
    (fo fi : Nat) (ho : p.hout = some fo) (hi : p.hin = some fi)
    (hne : wNoErr env.wev = true) (hv : wValid input.length 0 env.wev = true)
    (hcl : (sdOutRun input.length 0 env.wev).closed = true)
    (hecho : (sdInRun env.oev).1 = input)
    (hquiet : (sdInRun env.eev).1 = []) :
    (RedirectPipe.transact env p input).outBytes = input ∧
    (RedirectPipe.transact env p input).errBytes = [] := by
  constructor
  · simp [RedirectPipe.transact, ho, hecho]
  · cases hpe : p.herr <;> simp [RedirectPipe.transact, hpe, hquiet]

theorem claim_C3_witness :
    (RedirectPipe.transact
        ⟨[WEvent.ok 2], [REvent.ok [7, 8], REvent.err], [REvent.err]⟩
        ⟨some 5, some 3, some 4, false⟩ [7, 8]).outBytes = [7, 8] ∧
    (RedirectPipe.transact
        ⟨[WEvent.ok 2], [REvent.ok [7, 8], REvent.err], [REvent.err]⟩
        ⟨some 5, some 3, some 4, false⟩ [7, 8]).errBytes = [] :=
  claim_C3 ⟨some 5, some 3, some 4, false⟩ [7, 8]
    ⟨[WEvent.ok 2], [REvent.ok [7, 8], REvent.err], [REvent.err]⟩
    3 5 rfl rfl (by decide) (by decide) (by decide) (by decide) (by decide)

/-- Claim C5: an I/O error on a stream during `transact` (asio delivers the
EOF of a posix stream descriptor as an error code) never fails `transact`:
the affected reader driver closes its descriptor and becomes terminal,
finalizing with exactly the bytes accumulated before the error
(`rPrefixBytes`), the writer driver likewise closes on error, and the
results are still assembled and returned. -/
theorem claim_C5 (p : StreamSet) (input : List Nat) (env : TransactEnv) :
    (rHasErr env.oev = true → p.hout.isSome = true →
      (sdInRun env.oev).2 = true ∧
      (RedirectPipe.transact env p input).outBytes = rPrefixBytes env.oev) ∧
    (rHasErr env.eev = true → p.herr.isSome = true →
      (sdInRun env.eev).2 = true ∧
      (RedirectPipe.transact env p input).errBytes = rPrefixBytes env.eev) ∧
    (wHasErr env.wev = true → (sdOutRun input.length 0 env.wev).closed = true) := by
  refine ⟨fun he hd => ⟨?_, ?_⟩, fun he hd => ⟨?_, ?_⟩, fun he => ?_⟩
  · rw [sdInRun_eq]; exact he
  · simp [RedirectPipe.transact, hd, sdInRun_eq]
  · rw [sdInRun_eq]; exact he
  · simp [RedirectPipe.transact, hd, sdInRun_eq]
  · exact sdOutRun_closed_of_err input.length env.wev 0 he

theorem claim_C5_witness :
    (sdInRun [REvent.ok [9], REvent.err]).2 = true ∧
    (RedirectPipe.transact ⟨[WEvent.err], [REvent.ok [9], REvent.err], [REvent.err]⟩
        ⟨some 1, some 2, some 3, false⟩ [1, 2, 3]).outBytes =
      rPrefixBytes [REvent.ok [9], REvent.err] :=
  (claim_C5 ⟨some 1, some 2, some 3, false⟩ [1, 2, 3]
      ⟨[WEvent.err], [REvent.ok [9], REvent.err], [REvent.err]⟩).1
    (by decide) (by decide)

/-- Claim C10: the `SD` constructors of `transact` release each defined
parent-side handle into the asio stream descriptors, so after `transact`
returns all three parent handles are undefined; a second `transact` on the
same object therefore registers no active driver and returns immediately
with empty output and error, for any behaviour of the child. -/
theorem claim_C10 (env env2 : TransactEnv) (p : StreamSet) (input input2 : List Nat) :
    (RedirectPipe.transact env p input).parent.hin = none ∧
    (RedirectPipe.transact env p input).parent.hout = none ∧
    (RedirectPipe.transact env p input).parent.herr = none ∧
    RedirectPipe.transact env2 (RedirectPipe.transact env p input).parent input2 =
      ⟨(RedirectPipe.transact env p input).parent, true, [], []⟩ := by
  simp [RedirectPipe.transact]

theorem lrun_wst (len : Nat) (evs : List Ev) : ∀ st : Loop,
    (lrun len st evs).wst = (projW evs).foldl (wStepD len) st.wst := by
  induction evs with
  | nil => intro st; rfl
  | cons e r ih =>
    intro st
    cases e with
    | ew we => simpa [lrun, lstep, projW] using ih (lstep len st (Ev.ew we))
    | eo re => simpa [lrun, lstep, projW] using ih (lstep len st (Ev.eo re))
    | ee re => simpa [lrun, lstep, projW] using ih (lstep len st (Ev.ee re))

theorem lrun_ost (len : Nat) (evs : List Ev) : ∀ st : Loop,
    (lrun len st evs).ost = (projO evs).foldl rStepD st.ost := by
  induction evs with
  | nil => intro st; rfl
  | cons e r ih =>
    intro st
    cases e with
    | ew we => simpa [lrun, lstep, projO] using ih (lstep len st (Ev.ew we))
    | eo re => simpa [lrun, lstep, projO] using ih (lstep len st (Ev.eo re))
    | ee re => simpa [lrun, lstep, projO] using ih (lstep len st (Ev.ee re))

theorem lrun_est (len : Nat) (evs : List Ev) : ∀ st : Loop,
    (lrun len st evs).est = (projE evs).foldl rStepD st.est := by
  induction evs with
  | nil => intro st; rfl
  | cons e r ih =>
    intro st
    cases e with
    | ew we => simpa [lrun, lstep, projE] using ih (lstep len st (Ev.ew we))
    | eo re => simpa [lrun, lstep, projE] using ih (lstep len st (Ev.eo re))
    | ee re => simpa [lrun, lstep, projE] using ih (lstep len st (Ev.ee re))

theorem foldl_wStepD_inert (len : Nat) (ws : List WEvent) :
    ws.foldl (wStepD len) DState.inert = DState.inert := by
  induction ws with
  | nil => rfl
  | cons e r ih => cases e <;> simpa [wStepD] using ih

theorem foldl_wStepD_done (len a : Nat) (ws : List WEvent) :
    ws.foldl (wStepD len) (DState.done a) = DState.done a := by
  induction ws with
  | nil => rfl
  | cons e r ih => cases e <;> simpa [wStepD] using ih

theorem foldl_rStepD_inert (es : List REvent) :
    es.foldl rStepD DState.inert = DState.inert := by
  induction es with
  | nil => rfl
  | cons e r ih => cases e <;> simpa [rStepD] using ih

theorem foldl_rStepD_done (a : List Nat) (es : List REvent) :
    es.foldl rStepD (DState.done a) = DState.done a := by
  induction es with
  | nil => rfl
  | cons e r ih => cases e <;> simpa [rStepD] using ih

theorem foldl_wStepD_active (len : Nat) (ws : List WEvent) : ∀ pos,
    ws.foldl (wStepD len) (DState.active pos) =
      (if (sdOutRun len pos ws).closed then DState.done (sdOutRun len pos ws).sent
       else DState.active (sdOutRun len pos ws).sent) := by
  induction ws with
  | nil => intro pos; simp [sdOutRun]
  | cons e r ih =>
    intro pos
    cases e with
    | err => simp [sdOutRun, wStepD, foldl_wStepD_done]
    | ok n =>
      by_cases h : n < len - pos
      · simpa [sdOutRun, wStepD, h] using ih (pos + n)
      · simp [sdOutRun, wStepD, h, foldl_wStepD_done]

theorem foldl_rStepD_active (es : List REvent) : ∀ acc,
    es.foldl rStepD (DState.active acc) =
      (if (sdInRun es).2 then DState.done (acc ++ (sdInRun es).1)
       else DState.active (acc ++ (sdInRun es).1)) := by
  induction es with
  | nil => intro acc; simp [sdInRun]
  | cons e r ih =>
    intro acc
    cases e with
    | err => simp [sdInRun, rStepD, foldl_rStepD_done]
    | ok bs => simp [sdInRun, rStepD, ih (acc ++ bs)]

theorem terminalD_ite_done_active {α : Type} (c : Bool) (a b : α) :
    terminalD (if c = true then DState.done a else DState.active b) = c := by
  cases c <;> simp [terminalD]

theorem terminalD_inert {α : Type} : terminalD (DState.inert : DState α) = true :=
  rfl

theorem contentOf_ite_done_active (c : Bool) (a : List Nat) :
    contentOf (if c = true then DState.done a else DState.active a) = a := by
  cases c <;> simp [contentOf]

theorem contentOf_inert : contentOf DState.inert = [] :=
  rfl

/-- Claim C4: `transact`'s event loop — modelled as any schedule of handler
executions of the fresh single-threaded `io_context` — runs until every
registered driver is terminal (that, and nothing else, is when `run()`
returns: there is no timeout), and `transact` then returns exactly the pair
of the two readers' accumulated byte sequences; a driver whose handle was
undefined at registration is never started and contributes nothing (readers
contribute the empty byte sequence). -/
theorem claim_C4 :
    (∀ (p : StreamSet) (input : List Nat) (evs : List Ev),
      (RedirectPipe.transact ⟨projW evs, projO evs, projE evs⟩ p input).parent =
          { p with hin := none, hout := none, herr := none } ∧
      (RedirectPipe.transact ⟨projW evs, projO evs, projE evs⟩ p input).completed =
          allTerminal (lrun input.length (initLoop p) evs) ∧
      (RedirectPipe.transact ⟨projW evs, projO evs, projE evs⟩ p input).outBytes =
          contentOf (lrun input.length (initLoop p) evs).ost ∧
      (RedirectPipe.transact ⟨projW evs, projO evs, projE evs⟩ p input).errBytes =
          contentOf (lrun input.length (initLoop p) evs).est) ∧
    (∀ (p : StreamSet) (env : TransactEnv) (input : List Nat),
      (RedirectPipe.transact env { p with hout := none } input).outBytes = [] ∧
      (RedirectPipe.transact env { p with herr := none } input).errBytes = [] ∧
      (initLoop { p with hin := none }).wst = DState.inert) := by
  constructor
  · intro p input evs
    have hw := lrun_wst input.length evs (initLoop p)
    have ho := lrun_ost input.length evs (initLoop p)
    have he := lrun_est input.length evs (initLoop p)
    refine ⟨rfl, ?_, ?_, ?_⟩
    · rw [allTerminal, hw, ho, he]
      cases hpi : p.hin <;> cases hpo : p.hout <;> cases hpe : p.herr <;>
        simp [RedirectPipe.transact, initLoop, hpi, hpo, hpe,
          foldl_wStepD_inert, foldl_rStepD_inert,
          foldl_wStepD_active, foldl_rStepD_active,
          terminalD_ite_done_active, terminalD_inert]
    · rw [ho]
      cases hpo : p.hout <;>
        simp [RedirectPipe.transact, initLoop, hpo, foldl_rStepD_inert,
          foldl_rStepD_active, contentOf_ite_done_active, contentOf_inert]
    · rw [he]
      cases hpe : p.herr <;>
        simp [RedirectPipe.transact, initLoop, hpe, foldl_rStepD_inert,
          foldl_rStepD_active, contentOf_ite_done_active, contentOf_inert]
  · intro p env input
    refine ⟨?_, ?_, rfl⟩ <;> simp [RedirectPipe.transact, initLoop]

theorem constructOk_char (o : Oracle) (c e : Bool) (k : CtorOk)
    (h : RedirectPipe.construct o remote0 c e sys0 = Except.ok k) :
    k = ctorOkExpected c e := by
  cases hp0 : o.pipeFails 0 <;> cases hc0 : o.cloexecFails 0 <;>
    cases hp1 : o.pipeFails 1 <;> cases hc1 : o.cloexecFails 1 <;>
    cases hp2 : o.pipeFails 2 <;> cases hc2 : o.cloexecFails 2 <;>
    cases hn : o.openNullFails <;> cases c <;> cases e <;>
    simp_all [RedirectPipe.construct, make_pipe, cloexec, constructStderr,
      constructStdin, openNull, remote0, sys0, fdClose, unwindParent,
      ctorOkExpected]

/-- Claim C6: constructing the `RedirectPipe` with `combineOutErr = true`
leaves the parent's error handle undefined and creates at most two pipes
(output, and input when enabled); every `transact` on a stream set whose
error handle is undefined returns an empty error byte sequence and leaves
the error handle undefined, so every subsequent `transact` call also
returns an empty error byte sequence. -/
theorem claim_C6 (o : Oracle) (e : Bool) (k : CtorOk)
    (h : RedirectPipe.construct o remote0 true e sys0 = Except.ok k) :
    k.parent.herr = none ∧ k.sys.pipeCalls ≤ 2 ∧
    (∀ (q : StreamSet) (env : TransactEnv) (input : List Nat), q.herr = none →
      (RedirectPipe.transact env q input).errBytes = [] ∧
      (RedirectPipe.transact env q input).parent.herr = none) := by
  have hk := constructOk_char o true e k h
  subst hk
  refine ⟨?_, ?_, ?_⟩
  · cases e <;> rfl
  · cases e <;> decide
  · intro q env input hq
    constructor
    · simp [RedirectPipe.transact, hq]
    · rfl

theorem claim_C6_witness :
    (ctorOkExpected true true).parent.herr = none ∧
    (ctorOkExpected true true).sys.pipeCalls ≤ 2 ∧
    (∀ (q : StreamSet) (env : TransactEnv) (input : List Nat), q.herr = none →
      (RedirectPipe.transact env q input).errBytes = [] ∧
      (RedirectPipe.transact env q input).parent.herr = none) :=
  claim_C6 oracleOk true (ctorOkExpected true true) (by rfl)

/-- Claim C7: constructing the `RedirectPipe` with `enableIn = false` creates
no input pipe (the pipe count is exactly that of the output step, plus the
error step when not combined), leaves the parent's input handle undefined,
and resolves the remote's input handle to a descriptor opened read-only on
the null device — the source that yields end-of-stream immediately — which
is open when the constructor returns. -/
theorem claim_C7 (o : Oracle) (c : Bool) (k : CtorOk)
    (h : RedirectPipe.construct o remote0 c false sys0 = Except.ok k) :
    k.parent.hin = none ∧ k.sys.pipeCalls = (if c then 1 else 2) ∧
    (∃ f, k.remote.hin = some f ∧ f ∈ k.sys.nullRd ∧ f ∈ k.sys.openFds) := by
  have hk := constructOk_char o c false k h
  subst hk
  cases c
  · exact ⟨rfl, rfl, 7, rfl, by decide, by decide⟩
  · exact ⟨rfl, rfl, 5, rfl, by decide, by decide⟩

theorem construct_leakSpec (o : Oracle) (c e : Bool) :
    leakSpec o (RedirectPipe.construct o remote0 c e sys0) := by
  cases hp0 : o.pipeFails 0 <;> cases hc0 : o.cloexecFails 0 <;>
    cases hp1 : o.pipeFails 1 <;> cases hc1 : o.cloexecFails 1 <;>
    cases hp2 : o.pipeFails 2 <;> cases hc2 : o.cloexecFails 2 <;>
    cases hn : o.openNullFails <;> cases c <;> cases e <;>
    simp_all [RedirectPipe.construct, make_pipe, cloexec, constructStderr,
      constructStdin, openNull, remote0, sys0, fdClose, unwindParent,
      leakSpec, remoteOwns]

/-- Claim C1, counterexample to the claim as stated: with the second `::pipe`
call failing (the stderr pipe, output and error not combined), the
constructor propagates `pipeCreationError`, but descriptor 4 — the write end
of the already-created stdout pipe, which was transferred to the remote
stream set — is still open when the error surfaces: not every descriptor
allocated by earlier steps is closed before propagation. -/
theorem claim_C1_cex :
    RedirectPipe.construct oraclePipe1 remote0 false true sys0 =
      Except.error ⟨RedirErr.pipeCreationError,
                    ⟨none, some 4, none, false⟩, ⟨5, [4], [], 2, 1⟩⟩ ∧
    4 ∈ (⟨5, [4], [], 2, 1⟩ : Sys).openFds := by
  exact ⟨rfl, by decide⟩

/-- Claim C1 (amended): when a step of the `RedirectPipe` constructor fails,
the first encountered error kind is propagated, but not every descriptor
allocated by earlier steps is closed first: every descriptor still open when
the error surfaces is either held by a handle of the remote stream set
(whose cleanup is the remote owner's responsibility, the parent's own
handles having been closed by the unwinding) or left dangling by a failed
`fcntl(FD_CLOEXEC)` marking between `::pipe` and the `reset` into a
handle. -/
theorem claim_C1_amended (o : Oracle) (c e : Bool) (fl : CtorFail)
    (h : RedirectPipe.construct o remote0 c e sys0 = Except.error fl)
    (fd : Nat) (hfd : fd ∈ fl.sys.openFds) :
    remoteOwns fl.remote fd = true ∨
      (o.cloexecFails 0 = true ∨ o.cloexecFails 1 = true ∨
        o.cloexecFails 2 = true) := by
  have hl := construct_leakSpec o c e
  rw [h] at hl
  exact hl fd hfd

theorem claim_C1_witness :
    remoteOwns (⟨none, some 4, none, false⟩ : StreamSet) 4 = true ∨
      (oraclePipe1.cloexecFails 0 = true ∨ oraclePipe1.cloexecFails 1 = true ∨
        oraclePipe1.cloexecFails 2 = true) :=
  claim_C1_amended oraclePipe1 false true
    ⟨RedirErr.pipeCreationError, ⟨none, some 4, none, false⟩, ⟨5, [4], [], 2, 1⟩⟩
    rfl 4 (by decide)

theorem redirectStdin_char (o : DupOracle) (st : RSt) :
    (redirectStdin o st).acts = st.acts ++ inActs st.ss ∧
    (redirectStdin o st).ss.hin = postRel st.ss.hin ∧
    (redirectStdin o st).ss.hout = st.ss.hout ∧
    (redirectStdin o st).ss.herr = st.ss.herr ∧
    (redirectStdin o st).ss.combine_out_err = st.ss.combine_out_err := by
  rcases h : st.ss.hin with _ | a
  · simp [redirectStdin, inActs, postRel, h]
  · by_cases h2 : a ≤ 2 <;> simp [redirectStdin, inActs, postRel, h, h2]

theorem redirectStdout_char (o : DupOracle) (st : RSt) :
    (redirectStdout o st).acts = st.acts ++ outActs st.ss ∧
    (redirectStdout o st).ss.hin = st.ss.hin ∧
    (redirectStdout o st).ss.hout = postRel st.ss.hout ∧
    (redirectStdout o st).ss.herr = st.ss.herr ∧
    (redirectStdout o st).ss.combine_out_err = st.ss.combine_out_err := by
  rcases h : st.ss.hout with _ | b
  · simp [redirectStdout, outActs, postRel, h]
  · rcases he : st.ss.herr with _ | c <;> cases hc : st.ss.combine_out_err <;>
      by_cases h2 : b ≤ 2 <;>
      simp [redirectStdout, outActs, postRel, h, he, hc, h2]

theorem redirectStderr_char (o : DupOracle) (st : RSt) :
    (redirectStderr o st).acts = st.acts ++ errActs st.ss ∧
    (redirectStderr o st).ss.hin = st.ss.hin ∧
    (redirectStderr o st).ss.hout = st.ss.hout ∧
    (redirectStderr o st).ss.herr = postRel st.ss.herr ∧
    (redirectStderr o st).ss.combine_out_err = st.ss.combine_out_err := by
  rcases h : st.ss.herr with _ | c
  · simp [redirectStderr, errActs, postRel, h]
  · by_cases h2 : c ≤ 2 <;> simp [redirectStderr, errActs, postRel, h, h2]

theorem closeAll_char (st : RSt) :
    (RedirectStdFD.closeAll st).acts =
      st.acts ++ (closeActsOf st.ss.hin ++ closeActsOf st.ss.hout ++
        closeActsOf st.ss.herr) ∧
    (RedirectStdFD.closeAll st).ss = ⟨none, none, none, st.ss.combine_out_err⟩ := by
  rcases hi : st.ss.hin with _ | a <;> rcases ho : st.ss.hout with _ | b <;>
    rcases he : st.ss.herr with _ | c <;>
    simp [RedirectStdFD.closeAll, closeHandle, closeActsOf, hi, ho, he]

theorem outActs_congr (x y : StreamSet) (h1 : x.hout = y.hout)
    (h2 : x.herr = y.herr) (h3 : x.combine_out_err = y.combine_out_err) :
    outActs x = outActs y := by
  unfold outActs
  rw [h1, h2, h3]

theorem errActs_congr (x y : StreamSet) (h : x.herr = y.herr) :
    errActs x = errActs y := by
  unfold errActs
  rw [h]

theorem redirect_acts (o : DupOracle) (ss : StreamSet) (m : FileMap) :
    (RedirectStdFD.redirect o ss m).acts =
      inActs ss ++ outActs ss ++ errActs ss ++ closeActs ss ∧
    (RedirectStdFD.redirect o ss m).ss = ⟨none, none, none, ss.combine_out_err⟩ := by
  obtain ⟨a1, i1, o1, e1, c1⟩ := redirectStdin_char o ⟨ss, m, [], 0⟩
  obtain ⟨a2, i2, o2, e2, c2⟩ := redirectStdout_char o (redirectStdin o ⟨ss, m, [], 0⟩)
  obtain ⟨a3, i3, o3, e3, c3⟩ :=
    redirectStderr_char o (redirectStdout o (redirectStdin o ⟨ss, m, [], 0⟩))
  obtain ⟨a4, s4⟩ :=
    closeAll_char (redirectStderr o (redirectStdout o (redirectStdin o ⟨ss, m, [], 0⟩)))
  constructor
  · show (RedirectStdFD.redirect o ss m).acts = _
    unfold RedirectStdFD.redirect
    rw [a4, a3, a2, a1]
    rw [outActs_congr _ ss o1 e1 c1, errActs_congr _ ss (e2.trans e1)]
    simp [i1, i2, i3, o1, o2, o3, e1, e2, e3, closeActs, List.append_assoc]
  · show (RedirectStdFD.redirect o ss m).ss = _
    unfold RedirectStdFD.redirect
    rw [s4, c3, c2, c1]

/-- Claim C8: `redirect()` (the install operation of a stream set) never
fails observably — it is a total operation whose return carries no error
value; whatever subset of the `::dup2` calls the OS fails (their return
value is never checked), the same sequence of installation actions is
attempted and the operation runs to completion, closing all three handles. -/
theorem claim_C8 (o : DupOracle) (ss : StreamSet) (m : FileMap) :
    (RedirectStdFD.redirect o ss m).ss = ⟨none, none, none, ss.combine_out_err⟩ ∧
    (RedirectStdFD.redirect o ss m).acts = (RedirectStdFD.redirect dupOk ss m).acts :=
  ⟨(redirect_acts o ss m).2, by
    rw [(redirect_acts o ss m).1, (redirect_acts dupOk ss m).1]⟩

theorem postRel_gt (h : Option Nat) (g : Nat) (hg : postRel h = some g) : 2 < g := by
  cases h with
  | none => simp [postRel] at hg
  | some a =>
    by_cases h2 : a ≤ 2
    · simp [postRel, h2] at hg
    · simp [postRel, h2] at hg
      omega

theorem dup0_mem_inActs (ss : StreamSet) (a : Nat) (h : ss.hin = some a) :
    RAct.dup a 0 ∈ inActs ss := by
  by_cases h2 : a ≤ 2 <;> simp [inActs, h, h2]

theorem release_mem_inActs (ss : StreamSet) (a : Nat) (h : ss.hin = some a) (h2 : a ≤ 2) :
    RAct.release a ∈ inActs ss := by
  simp [inActs, h, h2]

theorem dup1_mem_outActs (ss : StreamSet) (b : Nat) (h : ss.hout = some b) :
    RAct.dup b 1 ∈ outActs ss := by
  rcases he : ss.herr with _ | c <;> cases hc : ss.combine_out_err <;>
    by_cases h2 : b ≤ 2 <;> simp [outActs, h, he, hc, h2]

theorem dup2_mem_outActs (ss : StreamSet) (b : Nat) (h : ss.hout = some b)
    (he : ss.herr = none) (hc : ss.combine_out_err = true) :
    RAct.dup b 2 ∈ outActs ss := by
  by_cases h2 : b ≤ 2 <;> simp [outActs, h, he, hc, h2]

theorem release_mem_outActs (ss : StreamSet) (b : Nat) (h : ss.hout = some b) (h2 : b ≤ 2) :
    RAct.release b ∈ outActs ss := by
  rcases he : ss.herr with _ | c <;> cases hc : ss.combine_out_err <;>
    simp [outActs, h, he, hc, h2]

theorem dup2_mem_errActs (ss : StreamSet) (c : Nat) (h : ss.herr = some c) :
    RAct.dup c 2 ∈ errActs ss := by
  by_cases h2 : c ≤ 2 <;> simp [errActs, h, h2]

theorem release_mem_errActs (ss : StreamSet) (c : Nat) (h : ss.herr = some c) (h2 : c ≤ 2) :
    RAct.release c ∈ errActs ss := by
  simp [errActs, h, h2]

theorem closeH_mem_closeActs (ss : StreamSet) (f : Nat)
    (h : ss.hin = some f ∨ ss.hout = some f ∨ ss.herr = some f) (h2 : 2 < f) :
    RAct.closeH f ∈ closeActs ss := by
  have h3 : ¬f ≤ 2 := by omega
  rcases h with h | h | h <;> simp [closeActs, closeActsOf, postRel, h, h3]

theorem mem_closeActs_closeH (ss : StreamSet) (x : RAct) (hx : x ∈ closeActs ss) :
    ∃ f, 2 < f ∧ x = RAct.closeH f := by
  simp only [closeActs, List.mem_append] at hx
  rcases hx with (hx | hx) | hx <;>
  · rcases hp : postRel _ with _ | g
    · rw [hp] at hx
      simp [closeActsOf] at hx
    · rw [hp] at hx
      simp [closeActsOf] at hx
      exact ⟨g, postRel_gt _ g hp, hx⟩

theorem closeH_not_mem_inActs (ss : StreamSet) (f : Nat) :
    RAct.closeH f ∉ inActs ss := by
  rcases h : ss.hin with _ | a
  · simp [inActs, h]
  · by_cases h2 : a ≤ 2 <;> simp [inActs, h, h2]

theorem closeH_not_mem_outActs (ss : StreamSet) (f : Nat) :
    RAct.closeH f ∉ outActs ss := by
  rcases h : ss.hout with _ | b
  · simp [outActs, h]
  · rcases he : ss.herr with _ | c <;> cases hc : ss.combine_out_err <;>
      by_cases h2 : b ≤ 2 <;> simp [outActs, h, he, hc, h2]

theorem closeH_not_mem_errActs (ss : StreamSet) (f : Nat) :
    RAct.closeH f ∉ errActs ss := by
  rcases h : ss.herr with _ | c
  · simp [errActs, h]
  · by_cases h2 : c ≤ 2 <;> simp [errActs, h, h2]

theorem release_mem_inActs_le (ss : StreamSet) (g : Nat)
    (h : RAct.release g ∈ inActs ss) : g ≤ 2 ∧ ss.hin = some g := by
  rcases hi : ss.hin with _ | a
  · simp [inActs, hi] at h
  · by_cases h2 : a ≤ 2 <;> simp [inActs, hi, h2] at h
    exact ⟨h ▸ h2, h ▸ rfl⟩

theorem release_mem_outActs_le (ss : StreamSet) (g : Nat)
    (h : RAct.release g ∈ outActs ss) : g ≤ 2 ∧ ss.hout = some g := by
  rcases ho : ss.hout with _ | b
  · simp [outActs, ho] at h
  · rcases he : ss.herr with _ | c <;> cases hc : ss.combine_out_err <;>
      by_cases h2 : b ≤ 2 <;> simp [outActs, ho, he, hc, h2] at h <;>
      exact ⟨h ▸ h2, h ▸ rfl⟩

theorem release_mem_errActs_le (ss : StreamSet) (g : Nat)
    (h : RAct.release g ∈ errActs ss) : g ≤ 2 ∧ ss.herr = some g := by
  rcases he : ss.herr with _ | c
  · simp [errActs, he] at h
  · by_cases h2 : c ≤ 2 <;> simp [errActs, he, h2] at h
    exact ⟨h ▸ h2, h ▸ rfl⟩

theorem release_not_mem_closeActs (ss : StreamSet) (f : Nat) :
    RAct.release f ∉ closeActs ss := by
  intro hx
  obtain ⟨g, _, hg⟩ := mem_closeActs_closeH ss _ hx
  exact RAct.noConfusion hg

theorem dup_not_mem_closeActs (ss : StreamSet) (s d : Nat) :
    RAct.dup s d ∉ closeActs ss := by
  intro hx
  obtain ⟨g, _, hg⟩ := mem_closeActs_closeH ss _ hx
  exact RAct.noConfusion hg

theorem dup0_not_mem_outActs (ss : StreamSet) (s : Nat) :
    RAct.dup s 0 ∉ outActs ss := by
  rcases ho : ss.hout with _ | b
  · simp [outActs, ho]
  · rcases he : ss.herr with _ | c <;> cases hc : ss.combine_out_err <;>
      by_cases h2 : b ≤ 2 <;> simp [outActs, ho, he, hc, h2]

theorem dup0_not_mem_errActs (ss : StreamSet) (s : Nat) :
    RAct.dup s 0 ∉ errActs ss := by
  rcases he : ss.herr with _ | c
  · simp [errActs, he]
  · by_cases h2 : c ≤ 2 <;> simp [errActs, he, h2]

theorem dup1_not_mem_inActs (ss : StreamSet) (s : Nat) :
    RAct.dup s 1 ∉ inActs ss := by
  rcases hi : ss.hin with _ | a
  · simp [inActs, hi]
  · by_cases h2 : a ≤ 2 <;> simp [inActs, hi, h2]

theorem dup1_not_mem_errActs (ss : StreamSet) (s : Nat) :
    RAct.dup s 1 ∉ errActs ss := by
  rcases he : ss.herr with _ | c
  · simp [errActs, he]
  · by_cases h2 : c ≤ 2 <;> simp [errActs, he, h2]

theorem dup2_not_mem_inActs (ss : StreamSet) (s : Nat) :
    RAct.dup s 2 ∉ inActs ss := by
  rcases hi : ss.hin with _ | a
  · simp [inActs, hi]
  · by_cases h2 : a ≤ 2 <;> simp [inActs, hi, h2]

theorem dup2_not_mem_outActs_plain (ss : StreamSet) (s : Nat)
    (he : ss.herr = none) (hc : ss.combine_out_err = false) :
    RAct.dup s 2 ∉ outActs ss := by
  rcases ho : ss.hout with _ | b
  · simp [outActs, ho]
  · by_cases h2 : b ≤ 2 <;> simp [outActs, ho, he, hc, h2]

theorem noCloseActs_append (l1 l2 : List RAct) :
    noCloseActs (l1 ++ l2) = (noCloseActs l1 && noCloseActs l2) := by
  induction l1 with
  | nil => simp [noCloseActs]
  | cons a r ih => cases a <;> simp [noCloseActs, ih]

theorem noCloseActs_inActs (ss : StreamSet) : noCloseActs (inActs ss) = true := by
  rcases hi : ss.hin with _ | a
  · simp [inActs, hi, noCloseActs]
  · by_cases h2 : a ≤ 2 <;> simp [inActs, hi, h2, noCloseActs]

theorem noCloseActs_outActs (ss : StreamSet) : noCloseActs (outActs ss) = true := by
  rcases ho : ss.hout with _ | b
  · simp [outActs, ho, noCloseActs]
  · rcases he : ss.herr with _ | c <;> cases hc : ss.combine_out_err <;>
      by_cases h2 : b ≤ 2 <;> simp [outActs, ho, he, hc, h2, noCloseActs]

theorem noCloseActs_errActs (ss : StreamSet) : noCloseActs (errActs ss) = true := by
  rcases he : ss.herr with _ | c
  · simp [errActs, he, noCloseActs]
  · by_cases h2 : c ≤ 2 <;> simp [errActs, he, h2, noCloseActs]

theorem onlyCloseActs_append (l1 l2 : List RAct) :
    onlyCloseActs (l1 ++ l2) = (onlyCloseActs l1 && onlyCloseActs l2) := by
  induction l1 with
  | nil => simp [onlyCloseActs]
  | cons a r ih => cases a <;> simp [onlyCloseActs, ih]

theorem onlyCloseActs_closeActsOf (h : Option Nat) :
    onlyCloseActs (closeActsOf h) = true := by
  cases h <;> simp [closeActsOf, onlyCloseActs]

theorem onlyCloseActs_closeActs (ss : StreamSet) :
    onlyCloseActs (closeActs ss) = true := by
  simp [closeActs, onlyCloseActs_append, onlyCloseActs_closeActsOf]

theorem closesAtEnd_of_only (l : List RAct) (h : onlyCloseActs l = true) :
    closesAtEnd l = true := by
  cases l with
  | nil => rfl
  | cons a r =>
    cases a with
    | closeH f => simpa [closesAtEnd, onlyCloseActs] using h
    | dup s d => simp [onlyCloseActs] at h
    | release f => simp [onlyCloseActs] at h

theorem closesAtEnd_append (l1 l2 : List RAct) (h1 : noCloseActs l1 = true)
    (h2 : onlyCloseActs l2 = true) : closesAtEnd (l1 ++ l2) = true := by
  induction l1 with
  | nil => simpa using closesAtEnd_of_only l2 h2
  | cons a r ih =>
    cases a with
    | closeH f => simp [noCloseActs] at h1
    | dup s d =>
      simp only [List.cons_append, closesAtEnd]
      exact ih (by simpa [noCloseActs] using h1)
    | release f =>
      simp only [List.cons_append, closesAtEnd]
      exact ih (by simpa [noCloseActs] using h1)

theorem installSpec_trace (ss : StreamSet) :
    installSpec ss (inActs ss ++ outActs ss ++ errActs ss ++ closeActs ss) := by
  refine ⟨?_, ?_, ?_, ?_, ?_, ?_, ?_, ?_, ?_, ?_⟩
  · intro a ha
    simp only [List.mem_append]
    exact Or.inl (Or.inl (Or.inl (dup0_mem_inActs ss a ha)))
  · intro h s hx
    simp only [List.mem_append] at hx
    rcases hx with ((hx | hx) | hx) | hx
    · simp [inActs, h] at hx
    · exact dup0_not_mem_outActs ss s hx
    · exact dup0_not_mem_errActs ss s hx
    · exact dup_not_mem_closeActs ss s 0 hx
  · intro b hb
    simp only [List.mem_append]
    exact Or.inl (Or.inl (Or.inr (dup1_mem_outActs ss b hb)))
  · intro h s hx
    simp only [List.mem_append] at hx
    rcases hx with ((hx | hx) | hx) | hx
    · exact dup1_not_mem_inActs ss s hx
    · simp [outActs, h] at hx
    · exact dup1_not_mem_errActs ss s hx
    · exact dup_not_mem_closeActs ss s 1 hx
  · intro c hc
    simp only [List.mem_append]
    exact Or.inl (Or.inr (dup2_mem_errActs ss c hc))
  · intro b he hc hb
    simp only [List.mem_append]
    exact Or.inl (Or.inl (Or.inr (dup2_mem_outActs ss b hb he hc)))
  · intro he hc s hx
    simp only [List.mem_append] at hx
    rcases hx with ((hx | hx) | hx) | hx
    · exact dup2_not_mem_inActs ss s hx
    · exact dup2_not_mem_outActs_plain ss s he hc hx
    · simp [errActs, he] at hx
    · exact dup_not_mem_closeActs ss s 2 hx
  · intro f hf h2
    constructor
    · simp only [List.mem_append]
      rcases hf with hf | hf | hf
      · exact Or.inl (Or.inl (Or.inl (release_mem_inActs ss f hf h2)))
      · exact Or.inl (Or.inl (Or.inr (release_mem_outActs ss f hf h2)))
      · exact Or.inl (Or.inr (release_mem_errActs ss f hf h2))
    · intro hx
      simp only [List.mem_append] at hx
      rcases hx with ((hx | hx) | hx) | hx
      · exact closeH_not_mem_inActs ss f hx
      · exact closeH_not_mem_outActs ss f hx
      · exact closeH_not_mem_errActs ss f hx
      · obtain ⟨g, hg, heq⟩ := mem_closeActs_closeH ss _ hx
        have : f = g := by injection heq
        omega
  · intro f hf h2
    constructor
    · simp only [List.mem_append]
      exact Or.inr (closeH_mem_closeActs ss f hf h2)
    · intro hx
      simp only [List.mem_append] at hx
      rcases hx with ((hx | hx) | hx) | hx
      · have := (release_mem_inActs_le ss f hx).1
        omega
      · have := (release_mem_outActs_le ss f hx).1
        omega
      · have := (release_mem_errActs_le ss f hx).1
        omega
      · exact release_not_mem_closeActs ss f hx
  · exact closesAtEnd_append _ _
      (by simp [noCloseActs_append, noCloseActs_inActs, noCloseActs_outActs,
        noCloseActs_errActs])
      (onlyCloseActs_closeActs ss)

/-- Claim C9: the action trace of `redirect()` duplicates `in` onto slot 0,
`out` onto slot 1 and `err` onto slot 2, each exactly when that handle is
defined; when `combine_out_err` is set and `err` is undefined, `out` is
additionally duplicated onto slot 2; after the duplications every source
handle whose descriptor value is in {0, 1, 2} is released (and never
closed), every other handle is closed (and never released), and the close
actions all come after the duplication/release phase. -/
theorem claim_C9 (o : DupOracle) (ss : StreamSet) (m : FileMap) :
    installSpec ss (RedirectStdFD.redirect o ss m).acts :=
  (redirect_acts o ss m).1 ▸ installSpec_trace ss

theorem claim_C9_witness :
    RAct.dup 5 0 ∈
      (RedirectStdFD.redirect dupOk ⟨some 5, some 6, some 7, false⟩
        (fun _ => none)).acts :=
  (claim_C9 dupOk ⟨some 5, some 6, some 7, false⟩ (fun _ => none)).1 5 rfl

theorem claim_C7_witness :
    (ctorOkExpected true false).parent.hin = none ∧
    (ctorOkExpected true false).sys.pipeCalls = (if true then 1 else 2) ∧
    (∃ f, (ctorOkExpected true false).remote.hin = some f ∧
      f ∈ (ctorOkExpected true false).sys.nullRd ∧
      f ∈ (ctorOkExpected true false).sys.openFds) :=
  claim_C7 oracleOk true (ctorOkExpected true false) (by rfl)

end openvpn
